import Mathlib

/-!
Shallow embedding of `src/server.py` (mybot-license-server): the license
record table, the four route handlers `activate`, `revoke`, `status`,
`heartbeat`, and the JWT encode/decode they use. Machine state is the
list of rows of the `licenses` sqlite table; each handler is a pure
function from the pre-state (plus its request data and the clock) to a
response together with the post-state.
-/

namespace LicenseServer

/-- JWT claims. `activate` builds the payload
`{jti, sub, user, hwid, iat, exp, features={"bot": True}}`; a token
supplied to `heartbeat` may decode to claims without a `jti`
(`payload.get("jti")` is `None` then), so `jti` is optional. -/
structure Claims where
  jti : Option String
  sub : String
  user : String
  hwid : String
  iat : Int
  exp : Int
  featuresBot : Bool
  deriving Repr, DecidableEq

/-- A token string: either it fails structural JWT decoding
(`jwt.decode` raises), or it is a structurally valid JWT carrying a
claims payload and a signature. The signature bytes are opaque. -/
inductive Token where
  | garbage (raw : String)
  | wellFormed (claims : Claims) (sig : String)
  deriving Repr, DecidableEq

/-- `jwt.decode(token, options={"verify_signature": False})`:
structural decode, never looking at the signature. -/
def jwtDecode : Token → Option Claims
  | .garbage _ => none
  | .wellFormed c _ => some c

/-- `sign_license(payload)` = `jwt.encode(payload, PRIVATE_KEY, algorithm="RS256")`:
a pure encoding of the claims plus an RS256 signature (opaque here). -/
def sign_license (payload : Claims) : Token :=
  .wellFormed payload "RS256-signature"

/-- One row of the `licenses` table. The sqlite column `revoked INTEGER
DEFAULT 0` only ever holds 0 or 1 (`UPDATE ... SET revoked=1`), so it is
embedded as `Bool`; likewise `last_seen INTEGER DEFAULT 0`. -/
structure Record where
  id : String
  license_key : String
  hwid : String
  user : String
  issued_at : Int
  expires_at : Int
  revoked : Bool
  last_seen : Int
  deriving Repr, DecidableEq

/-- The `licenses` table: its rows in insertion order. -/
abbrev Store := List Record

/-- `SELECT ... FROM licenses WHERE id=?`: point lookup on the primary
key (first matching row). -/
def lookup (st : Store) (j : String) : Option Record :=
  st.find? (fun r => r.id == j)

/-- `id TEXT PRIMARY KEY`: the table never holds two rows with the same
id (sqlite enforces this; `INSERT` of a duplicate raises). -/
def wf (st : Store) : Prop :=
  (st.map Record.id).Nodup

instance (st : Store) : Decidable (wf st) :=
  inferInstanceAs (Decidable ((st.map Record.id).Nodup))

/-- `INSERT INTO licenses ... VALUES (?,?,?,?,?,?)`: appends the row;
fails (sqlite `IntegrityError`) when the primary key already exists. -/
def insert (st : Store) (r : Record) : Option Store :=
  if (lookup st r.id).isSome then none else some (st ++ [r])

/-- `UPDATE licenses SET revoked=1 WHERE id=?`: the row update performed
by `/revoke`. -/
def revokeUpdate (st : Store) (j : String) : Store :=
  st.map (fun r => if r.id == j then { r with revoked := true } else r)

/-- `c.rowcount` after `UPDATE ... WHERE id=?`: sqlite counts the rows
matched by the `WHERE` clause (also when the value was already 1). -/
def rowsMatching (st : Store) (j : String) : Nat :=
  (st.filter (fun r => r.id == j)).length

/-- `UPDATE licenses SET last_seen=? WHERE id=?`: the row update
performed by `/heartbeat`. -/
def touchLastSeen (st : Store) (j : String) (ts : Int) : Store :=
  st.map (fun r => if r.id == j then { r with last_seen := ts } else r)

/-- Error responses of the route handlers. `invalidInput` is the 400
"... required" body, `notFound` the 404 body, `invalidToken` the 400
"invalid token" body, `duplicateKey` the uncaught sqlite
`IntegrityError` on an id collision. -/
inductive ApiErr where
  | invalidInput
  | notFound
  | invalidToken
  | duplicateKey
  deriving Repr, DecidableEq

instance {ε α : Type} [DecidableEq ε] [DecidableEq α] :
    DecidableEq (Except ε α) := fun a b =>
  match a, b with
  | .error e1, .error e2 =>
      if h : e1 = e2 then .isTrue (h ▸ rfl)
      else .isFalse fun hc => h (Except.noConfusion hc id)
  | .error _, .ok _ => .isFalse fun hc => Except.noConfusion hc
  | .ok _, .error _ => .isFalse fun hc => Except.noConfusion hc
  | .ok a1, .ok a2 =>
      if h : a1 = a2 then .isTrue (h ▸ rfl)
      else .isFalse fun hc => h (Except.noConfusion hc id)

/-- Python truthiness of `data.get(field)` for a string field: `None`
and `""` are falsy. -/
def truthy : Option String → Bool
  | none => false
  | some s => !s.isEmpty

/-- Success body of `/activate`: `{"token": ..., "jti": ..., "expires_at": ...}`. -/
structure ActivateOut where
  token : Token
  jti : String
  expires_at : Int
  deriving Repr, DecidableEq

/-- `/activate` (src/server.py lines 85-120). `license_key` and `hwid`
come from `data.get(...)` (absent → `none`); `user` defaults to `""`;
`duration_days` defaults to 365 and is coerced to an integer. `freshId`
is the `uuid.uuid4()` draw and `now` the `int(time.time())` reading. -/
def activate (st : Store) (license_key hwid : Option String) (user : String)
    (duration_days : Option Int) (freshId : String) (now : Int) :
    Except ApiErr ActivateOut × Store :=
  let duration := duration_days.getD 365
  if !(truthy license_key) || !(truthy hwid) then
    (.error .invalidInput, st)
  else
    let lic_id := freshId
    let issued := now
    let expires := issued + duration * 24 * 3600
    let payload : Claims :=
      { jti := some lic_id, sub := license_key.getD "", user := user,
        hwid := hwid.getD "", iat := issued, exp := expires, featuresBot := true }
    let token := sign_license payload
    let row : Record :=
      { id := lic_id, license_key := license_key.getD "",
        hwid := hwid.getD "", user := user, issued_at := issued,
        expires_at := expires, revoked := false, last_seen := 0 }
    match insert st row with
    | some st2 => (.ok { token := token, jti := lic_id, expires_at := expires }, st2)
    | none => (.error .duplicateKey, st)

/-- `/revoke` (src/server.py lines 124-141). `jti` comes from
`data.get("jti")`; success body is `{"revoked": true}` (the `Bool`). -/
def revoke (st : Store) (jti : Option String) : Except ApiErr Bool × Store :=
  if !(truthy jti) then
    (.error .invalidInput, st)
  else
    let j := jti.getD ""
    let st2 := revokeUpdate st j
    let updated := rowsMatching st j
    if updated == 0 then (.error .notFound, st2) else (.ok true, st2)

/-- A JSON scalar appearing in the `/status` response body. -/
inductive JVal where
  | s (v : String)
  | i (v : Int)
  | b (v : Bool)
  deriving Repr, DecidableEq

/-- The `/status` success body: the handler selects
`id, license_key, hwid, issued_at, expires_at, revoked, last_seen`
(and no other column) and returns them as a JSON object, with `revoked`
passed through `bool()`. -/
def statusRow (r : Record) : List (String × JVal) :=
  [("id", .s r.id), ("license_key", .s r.license_key),
   ("hwid", .s r.hwid), ("issued_at", .i r.issued_at),
   ("expires_at", .i r.expires_at), ("revoked", .b r.revoked),
   ("last_seen", .i r.last_seen)]

/-- `/status/<jti>` (src/server.py lines 145-164): point lookup, 404
when no row matches, otherwise the `statusRow` projection. The handler
only reads the table; the store is unchanged. -/
def status (st : Store) (jti : String) : Except ApiErr (List (String × JVal)) :=
  match lookup st jti with
  | none => .error .notFound
  | some r => .ok (statusRow r)

/-- Success body of `/heartbeat`: `{"revoked": true}`, `{"expired": true}`,
or `{"ok": true, "expires_at": ...}`. -/
inductive HbOk where
  | revoked
  | expired
  | ok (expires_at : Int)
  deriving Repr, DecidableEq

/-- `/heartbeat` (src/server.py lines 168-202). The token comes from
`data.get("token")` (absent/empty → 400 "token required"). Decoding
ignores the signature; `payload.get("jti")` never raises, and a `None`
jti makes the `WHERE id=?` lookup match nothing. When a row is found,
`last_seen` is updated before the classification. -/
def heartbeat (st : Store) (token : Option Token) (now : Int) :
    Except ApiErr HbOk × Store :=
  match token with
  | none => (.error .invalidInput, st)
  | some t =>
    match jwtDecode t with
    | none => (.error .invalidToken, st)
    | some payload =>
      match payload.jti with
      | none => (.error .notFound, st)
      | some j =>
        match lookup st j with
        | none => (.error .notFound, st)
        | some r =>
          let st2 := touchLastSeen st j now
          if r.revoked then (.ok .revoked, st2)
          else if now > r.expires_at then (.ok .expired, st2)
          else (.ok (.ok r.expires_at), st2)

end LicenseServer

/-! ## Helper lemmas about the store operations -/

namespace LicenseServer

theorem lookup_map (f : Record → Record) (hf : ∀ r, (f r).id = r.id)
    (st : Store) (j : String) : lookup (st.map f) j = (lookup st j).map f := by
  induction st with
  | nil => rfl
  | cons a t ih =>
      simp only [List.map_cons, lookup, List.find?_cons, hf]
      cases h : a.id == j
      · exact ih
      · rfl

theorem ids_map (f : Record → Record) (hf : ∀ r, (f r).id = r.id)
    (st : Store) : (st.map f).map Record.id = st.map Record.id := by
  rw [List.map_map]
  exact List.map_congr_left (fun r _ => hf r)

theorem touch_preserves_id (j : String) (ts : Int) (r : Record) :
    (if r.id == j then { r with last_seen := ts } else r).id = r.id := by
  split <;> rfl

theorem revokeApply_preserves_id (j : String) (r : Record) :
    (if r.id == j then { r with revoked := true } else r).id = r.id := by
  split <;> rfl

theorem beq_of_lookup (st : Store) (j : String) (r : Record)
    (h : lookup st j = some r) : r.id = j := by
  have h' : st.find? (fun x => x.id == j) = some r := h
  have hp := List.find?_some h'
  simpa using hp

theorem mem_of_lookup (st : Store) (j : String) (r : Record)
    (h : lookup st j = some r) : r ∈ st := by
  have h' : st.find? (fun x => x.id == j) = some r := h
  exact List.mem_of_find?_eq_some h'

theorem lookup_touchLastSeen_self (st : Store) (j : String) (ts : Int) (r : Record)
    (h : lookup st j = some r) :
    lookup (touchLastSeen st j ts) j = some { r with last_seen := ts } := by
  have hid := beq_of_lookup st j r h
  rw [touchLastSeen, lookup_map _ (touch_preserves_id j ts), h]
  simp [hid]

theorem lookup_revokeUpdate_self (st : Store) (j : String) (r : Record)
    (h : lookup st j = some r) :
    lookup (revokeUpdate st j) j = some { r with revoked := true } := by
  have hid := beq_of_lookup st j r h
  rw [revokeUpdate, lookup_map _ (revokeApply_preserves_id j), h]
  simp [hid]

theorem wf_revokeUpdate (st : Store) (j : String) (h : wf st) :
    wf (revokeUpdate st j) := by
  unfold wf revokeUpdate
  rw [ids_map _ (revokeApply_preserves_id j)]
  exact h

theorem rowsMatching_eq_one (st : Store) (hwf : wf st) (j : String) (r : Record)
    (h : lookup st j = some r) : rowsMatching st j = 1 := by
  induction st with
  | nil => simp [lookup] at h
  | cons a t ih =>
      obtain ⟨ha, ht⟩ := List.nodup_cons.mp hwf
      cases hc : a.id == j with
      | true =>
          have haj : a.id = j := by simpa using hc
          have hnil : t.filter (fun b => b.id == j) = [] := by
            rw [List.filter_eq_nil_iff]
            intro b hb hbj
            refine ha ?_
            have hbj' : b.id = j := by simpa using hbj
            rw [haj, ← hbj']
            exact List.mem_map_of_mem Record.id hb
          simp [rowsMatching, List.filter_cons, hc, hnil]
      | false =>
          have h' : lookup t j = some r := by
            simpa [lookup, List.find?_cons, hc] using h
          have hone := ih ht h'
          simpa [rowsMatching, List.filter_cons, hc] using hone

theorem revokeUpdate_idem (st : Store) (j : String) :
    revokeUpdate (revokeUpdate st j) j = revokeUpdate st j := by
  unfold revokeUpdate
  rw [List.map_map]
  refine List.map_congr_left (fun r _ => ?_)
  by_cases h : r.id = j
  · simp [h]
  · simp [h]

theorem heartbeat_snd (st : Store) (tok : Option Token) (now : Int) :
    (heartbeat st tok now).2 = st ∨
    ∃ j r, lookup st j = some r ∧
      (heartbeat st tok now).2 = touchLastSeen st j now := by
  cases tok with
  | none => exact Or.inl rfl
  | some t =>
      cases hd : jwtDecode t with
      | none => left; simp [heartbeat, hd]
      | some payload =>
          cases hj : payload.jti with
          | none => left; simp [heartbeat, hd, hj]
          | some j =>
              cases hl : lookup st j with
              | none => left; simp [heartbeat, hd, hj, hl]
              | some r =>
                  refine Or.inr ⟨j, r, hl, ?_⟩
                  simp only [heartbeat, hd, hj, hl]
                  by_cases hr : r.revoked <;> by_cases he : now > r.expires_at <;>
                    simp [hr, he]

theorem revoke_snd (st : Store) (jo : Option String) :
    (revoke st jo).2 = if truthy jo then revokeUpdate st (jo.getD "") else st := by
  unfold revoke
  by_cases h : truthy jo
  · simp only [h, Bool.not_true, Bool.false_eq_true, if_false, if_true]
    split <;> rfl
  · simp [h]

end LicenseServer

/-! ## Concrete fixtures used by witnesses and counterexamples -/

namespace LicenseServer

/-- A sample stored row (as inserted by a successful activation and then
heartbeat/revoke operations). -/
def wRecord : Record :=
  { id := "a", license_key := "K", hwid := "H", user := "alice",
    issued_at := 0, expires_at := 10, revoked := false, last_seen := 0 }

/-- The claims payload of a token whose `jti` points at `wRecord`. -/
def wClaims : Claims :=
  { jti := some "a", sub := "K", user := "alice", hwid := "H",
    iat := 0, exp := 10, featuresBot := true }

/-- A structurally valid token for `wRecord`. -/
def wToken : Token := .wellFormed wClaims "sig-one"

end LicenseServer

/-! ## Claim theorems -/

namespace LicenseServer

/-- C1: for every stored record found by `heartbeat`, the classification
is evaluated in order revoked → expired → ok and exactly one branch
fires: a revoked record reports `{revoked: true}`; otherwise a record
with `now > expires_at` reports `{expired: true}`; otherwise the report
is `{ok: true, expires_at}` with the record's `expires_at`. (The result
is a single `HbOk` constructor, so the three verdicts are mutually
exclusive and exhaustive.) -/
theorem heartbeat_classification (st : Store) (t : Token) (now : Int)
    (c : Claims) (j : String) (r : Record)
    (hd : jwtDecode t = some c) (hj : c.jti = some j)
    (hl : lookup st j = some r) :
    (r.revoked = true → (heartbeat st (some t) now).1 = .ok .revoked) ∧
    (r.revoked = false → now > r.expires_at →
      (heartbeat st (some t) now).1 = .ok .expired) ∧
    (r.revoked = false → ¬now > r.expires_at →
      (heartbeat st (some t) now).1 = .ok (.ok r.expires_at)) := by
  refine ⟨fun hr => ?_, fun hr he => ?_, fun hr he => ?_⟩ <;>
    simp [heartbeat, hd, hj, hl, hr, *]

/-- Witness for C1: on a concrete live record all three hypotheses are
satisfiable and the ok branch fires with the stored `expires_at`. -/
theorem heartbeat_classification_witness :
    (heartbeat [wRecord] (some wToken) 5).1 = .ok (.ok 10) :=
  (heartbeat_classification [wRecord] wToken 5 wClaims "a" wRecord
    rfl rfl rfl).2.2 rfl (by decide)

/-- C2 counterexample: a structurally valid token whose payload has no
`jti` does not make `heartbeat` fail with the invalid-token error; it
falls through to the store lookup, which matches nothing, and the call
fails with not-found. -/
theorem heartbeat_missing_jti_cex :
    (heartbeat [wRecord]
        (some (.wellFormed { wClaims with jti := none } "sig-two")) 5).1 =
      .error .notFound ∧
    (heartbeat [wRecord]
        (some (.wellFormed { wClaims with jti := none } "sig-two")) 5).1 ≠
      .error .invalidToken :=
  ⟨rfl, by decide⟩

/-- C2 amended: when decoding the token fails, `heartbeat` fails with
`invalidToken`; when decoding succeeds but the payload has no `jti`,
the lookup matches no row and `heartbeat` fails with `notFound` (in
both cases the store is unchanged). -/
theorem heartbeat_token_errors (st : Store) (t : Token) (now : Int)
    (c : Claims) :
    (jwtDecode t = none → heartbeat st (some t) now = (.error .invalidToken, st)) ∧
    (jwtDecode t = some c → c.jti = none →
      heartbeat st (some t) now = (.error .notFound, st)) := by
  constructor
  · intro hd; simp [heartbeat, hd]
  · intro hd hj; simp [heartbeat, hd, hj]

/-- Witness for C2 (amended): both hypotheses are satisfiable at
concrete tokens and both error paths are hit. -/
theorem heartbeat_token_errors_witness :
    heartbeat [wRecord] (some (.garbage "not-a-jwt")) 5 =
      (.error .invalidToken, [wRecord]) ∧
    heartbeat [wRecord]
        (some (.wellFormed { wClaims with jti := none } "sig-two")) 7 =
      (.error .notFound, [wRecord]) :=
  ⟨(heartbeat_token_errors [wRecord] (.garbage "not-a-jwt") 5 wClaims).1 rfl,
   (heartbeat_token_errors [wRecord]
      (.wellFormed { wClaims with jti := none } "sig-two") 7
      { wClaims with jti := none }).2 rfl rfl⟩

/-- C10: the result of `heartbeat` and its effect on the store depend
only on the decoded payload's `jti` and the current store: two tokens
decoding to payloads with the same `jti` produce identical responses
and identical post-states, whatever their signatures and their other
claims (`sub`, `user`, `hwid`, `iat`, `exp`, `features`). -/
theorem heartbeat_depends_only_on_jti (st : Store) (t1 t2 : Token)
    (now : Int) (c1 c2 : Claims)
    (h1 : jwtDecode t1 = some c1) (h2 : jwtDecode t2 = some c2)
    (hj : c1.jti = c2.jti) :
    heartbeat st (some t1) now = heartbeat st (some t2) now := by
  simp only [heartbeat, h1, h2, hj]

/-- Witness for C10: two tokens with the same `jti` but different
signatures and different `sub`/`user`/`hwid`/`iat`/`exp`/`features`
claims are treated identically. -/
theorem heartbeat_depends_only_on_jti_witness :
    heartbeat [wRecord] (some wToken) 5 =
      heartbeat [wRecord]
        (some (.wellFormed
          { jti := some "a", sub := "OTHER", user := "mallory",
            hwid := "H2", iat := 99, exp := 99, featuresBot := false }
          "forged-signature")) 5 :=
  heartbeat_depends_only_on_jti [wRecord] wToken
    (.wellFormed
      { jti := some "a", sub := "OTHER", user := "mallory",
        hwid := "H2", iat := 99, exp := 99, featuresBot := false }
      "forged-signature") 5 wClaims
    { jti := some "a", sub := "OTHER", user := "mallory",
      hwid := "H2", iat := 99, exp := 99, featuresBot := false }
    rfl rfl rfl

end LicenseServer

namespace LicenseServer

/-- C3 counterexample: the status projection of a concrete stored record
whose `user` field is `"alice"` carries no `"user"` key at all — the
handler's SELECT and response omit that column — so the projection does
not contain every field of the record. -/
theorem status_user_cex :
    status [wRecord] "a" = .ok (statusRow wRecord) ∧
    wRecord.user = "alice" ∧
    List.lookup "user" (statusRow wRecord) = none :=
  ⟨rfl, rfl, rfl⟩

/-- C3 amended: for every id with a stored record, `status` returns a
projection carrying `id`, `license_key`, `hwid`, `issued_at`,
`expires_at` and `last_seen` unchanged and `revoked` as a boolean, but
omitting the record's `user` field; for every id with no stored record
it fails with not-found. -/
theorem status_projection (st : Store) (j : String) (r : Record)
    (h : lookup st j = some r) :
    status st j = .ok (statusRow r) ∧
    List.lookup "id" (statusRow r) = some (.s r.id) ∧
    List.lookup "license_key" (statusRow r) = some (.s r.license_key) ∧
    List.lookup "hwid" (statusRow r) = some (.s r.hwid) ∧
    List.lookup "issued_at" (statusRow r) = some (.i r.issued_at) ∧
    List.lookup "expires_at" (statusRow r) = some (.i r.expires_at) ∧
    List.lookup "revoked" (statusRow r) = some (.b r.revoked) ∧
    List.lookup "last_seen" (statusRow r) = some (.i r.last_seen) ∧
    List.lookup "user" (statusRow r) = none ∧
    (∀ j2, lookup st j2 = none → status st j2 = .error .notFound) :=
  ⟨by simp [status, h], rfl, rfl, rfl, rfl, rfl, rfl, rfl, rfl,
   fun j2 h2 => by simp [status, h2]⟩

/-- Witness for C3 (amended): the hypothesis holds for a concrete store
and the projection carries the stored boolean `revoked`. -/
theorem status_projection_witness :
    status [wRecord] "a" = .ok (statusRow wRecord) ∧
    List.lookup "revoked" (statusRow wRecord) = some (.b wRecord.revoked) :=
  ⟨(status_projection [wRecord] "a" wRecord rfl).1,
   (status_projection [wRecord] "a" wRecord rfl).2.2.2.2.2.2.1⟩

/-- C4: when `license_key` or `hwid` is absent or empty, `activate`
fails with the invalid-input error and the store is returned unchanged:
no record is inserted (and the error result carries no token, so none
was issued). -/
theorem activate_missing_input (st : Store) (lk hw : Option String)
    (user : String) (d : Option Int) (fid : String) (now : Int)
    (h : truthy lk = false ∨ truthy hw = false) :
    activate st lk hw user d fid now = (.error .invalidInput, st) := by
  rcases h with h | h <;> simp [activate, h]

/-- Witness for C4: an absent `hwid` and an empty `hwid` both trigger
the invalid-input error with the store untouched. -/
theorem activate_missing_input_witness :
    activate [wRecord] (some "K") none "u" (some 30) "fresh" 50 =
      (.error .invalidInput, [wRecord]) ∧
    activate [] (some "K") (some "") "u" none "fresh" 50 =
      (.error .invalidInput, []) :=
  ⟨activate_missing_input [wRecord] (some "K") none "u" (some 30) "fresh" 50
      (Or.inr rfl),
   activate_missing_input [] (some "K") (some "") "u" none "fresh" 50
      (Or.inr rfl)⟩

end LicenseServer

namespace LicenseServer

/-- C5: revoke is idempotent. For an id whose record is stored (ids are
uuid strings, hence nonempty), both the first and the second `/revoke`
call succeed, each time with the row update matching exactly one row;
the second call leaves the store exactly as the first left it; and
`/status` reports `revoked = true` after either call. -/
theorem revoke_idempotent (st : Store) (j : String) (r : Record)
    (hne : j ≠ "") (hwf : wf st) (hl : lookup st j = some r) :
    (revoke st (some j)).1 = .ok true ∧
    rowsMatching st j = 1 ∧
    (revoke ((revoke st (some j)).2) (some j)).1 = .ok true ∧
    rowsMatching ((revoke st (some j)).2) j = 1 ∧
    (revoke ((revoke st (some j)).2) (some j)).2 = (revoke st (some j)).2 ∧
    status ((revoke st (some j)).2) j = .ok (statusRow { r with revoked := true }) ∧
    List.lookup "revoked" (statusRow { r with revoked := true }) = some (.b true) ∧
    status ((revoke ((revoke st (some j)).2) (some j)).2) j =
      .ok (statusRow { r with revoked := true }) := by
  have htr : truthy (some j) = true := by
    simp only [truthy]
    rw [show j.isEmpty = false by rw [← Bool.not_eq_true, String.isEmpty_iff]; exact hne]
    rfl
  have h1 : rowsMatching st j = 1 := rowsMatching_eq_one st hwf j r hl
  have hsnd1 : (revoke st (some j)).2 = revokeUpdate st j := by
    rw [revoke_snd]; simp [htr]
  have hfst1 : (revoke st (some j)).1 = .ok true := by
    simp [revoke, htr, h1]
  have hl1 : lookup (revokeUpdate st j) j = some { r with revoked := true } :=
    lookup_revokeUpdate_self st j r hl
  have hwf1 : wf (revokeUpdate st j) := wf_revokeUpdate st j hwf
  have h2 : rowsMatching (revokeUpdate st j) j = 1 :=
    rowsMatching_eq_one _ hwf1 j _ hl1
  have hfst2 : (revoke (revokeUpdate st j) (some j)).1 = .ok true := by
    simp [revoke, htr, h2]
  have hsnd2 : (revoke (revokeUpdate st j) (some j)).2 = revokeUpdate st j := by
    rw [revoke_snd]; simp [htr, revokeUpdate_idem]
  refine ⟨hfst1, h1, ?_, ?_, ?_, ?_, rfl, ?_⟩
  · rw [hsnd1]; exact hfst2
  · rw [hsnd1]; exact h2
  · rw [hsnd1]; exact hsnd2
  · rw [hsnd1]; simp [status, hl1]
  · rw [hsnd1, hsnd2]; simp [status, hl1]

/-- Witness for C5: both revocations of a concrete stored record succeed,
the second is a no-op on the store, and the status body reports
`revoked = true`. -/
theorem revoke_idempotent_witness :
    (revoke [wRecord] (some "a")).1 = .ok true ∧
    (revoke ((revoke [wRecord] (some "a")).2) (some "a")).1 = .ok true ∧
    (revoke ((revoke [wRecord] (some "a")).2) (some "a")).2 =
      (revoke [wRecord] (some "a")).2 ∧
    List.lookup "revoked" (statusRow { wRecord with revoked := true }) =
      some (.b true) := by
  have H := revoke_idempotent [wRecord] "a" wRecord (by decide) (by decide) rfl
  exact ⟨H.1, H.2.2.1, H.2.2.2.2.1, H.2.2.2.2.2.2.1⟩

end LicenseServer

namespace LicenseServer

theorem activate_ok_shape (st : Store) (lk hw : Option String) (user : String)
    (d : Option Int) (fid : String) (now : Int) (out : ActivateOut) (st' : Store)
    (h : activate st lk hw user d fid now = (.ok out, st')) :
    out.expires_at = now + (d.getD 365) * 24 * 3600 ∧
    st' = st ++ [{ id := fid, license_key := lk.getD "", hwid := hw.getD "",
                   user := user, issued_at := now,
                   expires_at := now + (d.getD 365) * 24 * 3600,
                   revoked := false, last_seen := 0 }] := by
  simp only [activate] at h
  split at h
  · exact Except.noConfusion (congrArg Prod.fst h)
  · simp only [insert] at h
    split at h
    next st2 heq =>
      split at heq
      · exact Option.noConfusion heq
      · obtain rfl := Option.some.inj heq
        obtain ⟨h1, h2⟩ := Prod.mk.injEq .. |>.mp h
        obtain rfl := Except.ok.inj h1
        exact ⟨rfl, h2.symm⟩
    next heq =>
      exact Except.noConfusion (congrArg Prod.fst h)

theorem activate_snd_cases (st : Store) (lk hw : Option String) (u : String)
    (d : Option Int) (fid : String) (now : Int) :
    (activate st lk hw u d fid now).2 = st ∨
    ∃ row, (activate st lk hw u d fid now).2 = st ++ [row] := by
  by_cases hc : (!(truthy lk) || !(truthy hw)) = true
  · left; simp [activate, hc]
  · by_cases hi : (lookup st fid).isSome = true
    · left; simp [activate, insert, hc, hi]
    · right
      refine ⟨{ id := fid, license_key := lk.getD "", hwid := hw.getD "",
                user := u, issued_at := now,
                expires_at := now + (d.getD 365) * 24 * 3600,
                revoked := false, last_seen := 0 }, ?_⟩
      simp [activate, insert, hc, hi]

/-- The record created by `activate(license_key="K", hwid="H",
duration_days=0)` at time 100: it expires the second it is issued. -/
def cxRow : Record :=
  { id := "id1", license_key := "K", hwid := "H", user := "",
    issued_at := 100, expires_at := 100, revoked := false, last_seen := 0 }

/-- The token claims of that activation. -/
def cxClaims : Claims :=
  { jti := some "id1", sub := "K", user := "", hwid := "H",
    iat := 100, exp := 100, featuresBot := true }

/-- The `/activate` response of that activation. -/
def cxOut : ActivateOut :=
  { token := sign_license cxClaims, jti := "id1", expires_at := 100 }

/-- C6 counterexample: `activate` accepts `duration_days = 0`
(`int(data.get("duration_days", 365))` performs no range check); the
call succeeds and creates a record with `expires_at = issued_at = 100`,
refuting the strict inequality `expires_at > issued_at` for this
accepted input. -/
theorem activate_zero_duration_cex :
    activate [] (some "K") (some "H") "" (some 0) "id1" 100 =
      (.ok cxOut, [cxRow]) ∧
    cxRow.issued_at = 100 ∧ cxRow.expires_at = 100 ∧
    ¬ cxRow.expires_at > cxRow.issued_at :=
  ⟨by decide, rfl, rfl, by decide⟩

/-- C6 amended: every record created by a successful `activate` whose
accepted `duration_days` is at least 1 (the default 365 included)
satisfies `expires_at > issued_at`, and the inequality is preserved by
all subsequent operations: neither `revoke` nor `heartbeat` changes
`issued_at` or `expires_at` of any record. (For `duration_days ≤ 0`,
which `activate` also accepts, the inequality fails — see the
counterexample.) -/
theorem activate_expiry_invariant (st : Store) (lk hw : Option String)
    (user : String) (d : Option Int) (fid : String) (now : Int)
    (out : ActivateOut) (st' : Store)
    (hd : 1 ≤ d.getD 365)
    (h : activate st lk hw user d fid now = (.ok out, st')) :
    (∃ nrec, st'[st.length]? = some nrec ∧ nrec.issued_at = now ∧
       nrec.expires_at > nrec.issued_at) ∧
    (∀ (st2 : Store) (jo : Option String),
       (∀ r ∈ st2, r.expires_at > r.issued_at) →
       ∀ r' ∈ (revoke st2 jo).2, r'.expires_at > r'.issued_at) ∧
    (∀ (st2 : Store) (tok : Option Token) (now2 : Int),
       (∀ r ∈ st2, r.expires_at > r.issued_at) →
       ∀ r' ∈ (heartbeat st2 tok now2).2, r'.expires_at > r'.issued_at) := by
  obtain ⟨hout, hst⟩ := activate_ok_shape _ _ _ _ _ _ _ _ _ h
  refine ⟨?_, ?_, ?_⟩
  · refine ⟨{ id := fid, license_key := lk.getD "", hwid := hw.getD "",
              user := user, issued_at := now,
              expires_at := now + (d.getD 365) * 24 * 3600,
              revoked := false, last_seen := 0 }, ?_, rfl, ?_⟩
    · rw [hst, List.getElem?_append, if_neg (lt_irrefl st.length), Nat.sub_self]
      rfl
    · show now + (d.getD 365) * 24 * 3600 > now
      have h0 : (0 : Int) < d.getD 365 := lt_of_lt_of_le zero_lt_one hd
      have hpos : (0 : Int) < (d.getD 365) * 24 * 3600 := by positivity
      linarith
  · intro st2 jo hP r' hr'
    rw [revoke_snd] at hr'
    split at hr'
    · rw [revokeUpdate] at hr'
      obtain ⟨r, hr, rfl⟩ := List.mem_map.mp hr'
      by_cases hc : (r.id == jo.getD "") = true <;> simp only [hc, if_true,
        Bool.false_eq_true, if_false] <;> exact hP r hr
    · exact hP r' hr'
  · intro st2 tok now2 hP r' hr'
    rcases heartbeat_snd st2 tok now2 with hq | ⟨j, rr, hlk, hq⟩
    · rw [hq] at hr'; exact hP r' hr'
    · rw [hq, touchLastSeen] at hr'
      obtain ⟨r, hr, rfl⟩ := List.mem_map.mp hr'
      by_cases hc : (r.id == j) = true <;> simp only [hc, if_true,
        Bool.false_eq_true, if_false] <;> exact hP r hr

/-- The token claims of `activate(license_key="K", hwid="H")` at time
100 with the default duration: expiry 100 + 365*86400 = 31536100. -/
def d365Claims : Claims :=
  { jti := some "id1", sub := "K", user := "", hwid := "H",
    iat := 100, exp := 31536100, featuresBot := true }

/-- The `/activate` response of that default-duration activation. -/
def d365Out : ActivateOut :=
  { token := sign_license d365Claims, jti := "id1", expires_at := 31536100 }

/-- The record created by that default-duration activation. -/
def d365Row : Record :=
  { id := "id1", license_key := "K", hwid := "H", user := "",
    issued_at := 100, expires_at := 31536100, revoked := false, last_seen := 0 }

/-- Witness for C6 (amended): the default duration produces a record
with `expires_at > issued_at`, and revocation preserves the
inequality. -/
theorem activate_expiry_invariant_witness :
    (∃ nrec, ((activate [] (some "K") (some "H") "" none "id1" 100).2)[0]? =
        some nrec ∧ nrec.issued_at = 100 ∧ nrec.expires_at > nrec.issued_at) ∧
    (∀ (st2 : Store) (jo : Option String),
       (∀ r ∈ st2, r.expires_at > r.issued_at) →
       ∀ r' ∈ (revoke st2 jo).2, r'.expires_at > r'.issued_at) := by
  have H := activate_expiry_invariant [] (some "K") (some "H") "" none "id1" 100
    d365Out [d365Row] (by decide) (by decide)
  exact ⟨H.1, H.2.1⟩

end LicenseServer

namespace LicenseServer

/-- C7: for every successful `activate` with a non-negative integer
`duration_days` (365 when the field is absent), the reported expiry and
the stored record satisfy `expires_at - issued_at = duration_days *
86400` exactly, in exact integer arithmetic (the code computes
`duration * 24 * 3600`). -/
theorem activate_duration_arith (st : Store) (lk hw : Option String)
    (user : String) (d : Option Int) (fid : String) (now : Int)
    (out : ActivateOut) (st' : Store)
    (hd : 0 ≤ d.getD 365)
    (h : activate st lk hw user d fid now = (.ok out, st')) :
    out.expires_at - now = (d.getD 365) * 86400 ∧
    ∃ nrec, st'[st.length]? = some nrec ∧ nrec.issued_at = now ∧
      nrec.expires_at - nrec.issued_at = (d.getD 365) * 86400 := by
  obtain ⟨hout, hst⟩ := activate_ok_shape _ _ _ _ _ _ _ _ _ h
  constructor
  · rw [hout]; ring
  · refine ⟨{ id := fid, license_key := lk.getD "", hwid := hw.getD "",
              user := user, issued_at := now,
              expires_at := now + (d.getD 365) * 24 * 3600,
              revoked := false, last_seen := 0 }, ?_, rfl, ?_⟩
    · rw [hst, List.getElem?_append, if_neg (lt_irrefl st.length), Nat.sub_self]
      rfl
    · show now + (d.getD 365) * 24 * 3600 - now = (d.getD 365) * 86400
      ring

/-- The token claims of `activate(license_key="K", hwid="H",
duration_days=1)` at time 100: expiry 100 + 86400 = 86500. -/
def d1Claims : Claims :=
  { jti := some "id1", sub := "K", user := "", hwid := "H",
    iat := 100, exp := 86500, featuresBot := true }

/-- The `/activate` response of that one-day activation. -/
def d1Out : ActivateOut :=
  { token := sign_license d1Claims, jti := "id1", expires_at := 86500 }

/-- The record created by that one-day activation. -/
def d1Row : Record :=
  { id := "id1", license_key := "K", hwid := "H", user := "",
    issued_at := 100, expires_at := 86500, revoked := false, last_seen := 0 }

/-- Witness for C7: `duration_days = 1` yields exactly 86400 seconds of
validity both in the response and in the stored record. -/
theorem activate_duration_arith_witness :
    d1Out.expires_at - 100 = (1 : Int) * 86400 ∧
    (∃ nrec, ((activate [] (some "K") (some "H") "" (some 1) "id1" 100).2)[0]? =
        some nrec ∧ nrec.issued_at = 100 ∧
        nrec.expires_at - nrec.issued_at = (1 : Int) * 86400) := by
  have H := activate_duration_arith [] (some "K") (some "H") "" (some 1) "id1" 100
    d1Out [d1Row] (by decide) (by decide)
  exact ⟨H.1, H.2⟩

/-- C8: whenever the decoded token's `jti` matches a stored record,
`heartbeat` sets that record's `last_seen` to the call time (the update
runs before the classification) and answers with some classification —
whichever of the three verdicts it is. -/
theorem heartbeat_updates_lastSeen (st : Store) (t : Token) (now : Int)
    (c : Claims) (j : String) (r : Record)
    (hd : jwtDecode t = some c) (hj : c.jti = some j)
    (hl : lookup st j = some r) :
    lookup ((heartbeat st (some t) now).2) j = some { r with last_seen := now } ∧
    ∃ res, (heartbeat st (some t) now).1 = .ok res := by
  have hsnd : (heartbeat st (some t) now).2 = touchLastSeen st j now := by
    simp only [heartbeat, hd, hj, hl]
    by_cases hr : r.revoked <;> by_cases he : now > r.expires_at <;> simp [hr, he]
  refine ⟨by rw [hsnd]; exact lookup_touchLastSeen_self st j now r hl, ?_⟩
  by_cases hr : r.revoked = true
  · exact ⟨.revoked, by simp [heartbeat, hd, hj, hl, hr]⟩
  · by_cases he : now > r.expires_at
    · exact ⟨.expired, by simp [heartbeat, hd, hj, hl, hr, he]⟩
    · exact ⟨.ok r.expires_at, by simp [heartbeat, hd, hj, hl, hr, he]⟩

/-- Witness for C8: heartbeating a revoked record still advances its
`last_seen` to the call time while the verdict is `revoked`. -/
theorem heartbeat_updates_lastSeen_witness :
    lookup ((heartbeat [{ wRecord with revoked := true }]
        (some wToken) 5).2) "a" =
      some { wRecord with revoked := true, last_seen := 5 } ∧
    ∃ res, (heartbeat [{ wRecord with revoked := true }]
        (some wToken) 5).1 = .ok res :=
  heartbeat_updates_lastSeen [{ wRecord with revoked := true }] wToken 5
    wClaims "a" { wRecord with revoked := true } rfl rfl rfl

end LicenseServer

namespace LicenseServer

/-- Two rows agreeing on every field except possibly `revoked` and
`last_seen`: the immutable part of a license record. -/
def framePreserved (a b : Record) : Prop :=
  b.id = a.id ∧ b.license_key = a.license_key ∧ b.hwid = a.hwid ∧
  b.user = a.user ∧ b.issued_at = a.issued_at ∧ b.expires_at = a.expires_at

/-- C9: frame conditions of the operations on an existing row (the row
at any position `k` of the table). `revoke` may change only `revoked`,
and only from false to true; `heartbeat` may change only `last_seen`;
neither deletes a row (lengths are preserved); and `activate` leaves
every existing row untouched (`status` performs no write at all — it
returns no store). -/
theorem ops_frame (st : Store) (jo : Option String) (tok : Option Token)
    (now : Int) (k : Nat) (r : Record) (h : st[k]? = some r) :
    (∃ r', ((revoke st jo).2)[k]? = some r' ∧ framePreserved r r' ∧
       r'.last_seen = r.last_seen ∧ (r.revoked = true → r'.revoked = true)) ∧
    (∃ r', ((heartbeat st tok now).2)[k]? = some r' ∧ framePreserved r r' ∧
       r'.revoked = r.revoked) ∧
    (revoke st jo).2.length = st.length ∧
    (heartbeat st tok now).2.length = st.length ∧
    (∀ (lk hw : Option String) (u : String) (d : Option Int) (fid : String),
       ((activate st lk hw u d fid now).2)[k]? = some r) := by
  have hk : k < st.length := (List.getElem?_eq_some.mp h).1
  refine ⟨?_, ?_, ?_, ?_, ?_⟩
  · rw [revoke_snd]
    split
    · rw [revokeUpdate, List.getElem?_map, h]
      refine ⟨_, rfl, ?_⟩
      by_cases hc : (r.id == jo.getD "") = true <;>
        simp [hc, framePreserved]
    · exact ⟨r, h, by simp [framePreserved], rfl, fun hr => hr⟩
  · rcases heartbeat_snd st tok now with hq | ⟨j, rr, hlk, hq⟩
    · rw [hq]
      exact ⟨r, h, by simp [framePreserved], rfl⟩
    · rw [hq, touchLastSeen, List.getElem?_map, h]
      refine ⟨_, rfl, ?_⟩
      by_cases hc : (r.id == j) = true <;>
        simp [hc, framePreserved]
  · rw [revoke_snd]
    split
    · exact List.length_map _ _
    · rfl
  · rcases heartbeat_snd st tok now with hq | ⟨j, rr, hlk, hq⟩
    · rw [hq]
    · rw [hq, touchLastSeen]
      exact List.length_map _ _
  · intro lk hw u d fid
    rcases activate_snd_cases st lk hw u d fid now with hs | ⟨row, hs⟩
    · rw [hs]; exact h
    · rw [hs, List.getElem?_append, if_pos hk]; exact h

/-- Witness for C9: the frame conditions at the single row of a
concrete store, against concrete revoke and heartbeat calls. -/
theorem ops_frame_witness :
    (∃ r', ((revoke [wRecord] (some "a")).2)[0]? = some r' ∧
       framePreserved wRecord r' ∧ r'.last_seen = wRecord.last_seen ∧
       (wRecord.revoked = true → r'.revoked = true)) ∧
    (∃ r', ((heartbeat [wRecord] (some wToken) 5).2)[0]? = some r' ∧
       framePreserved wRecord r' ∧ r'.revoked = wRecord.revoked) ∧
    ((heartbeat [wRecord] (some wToken) 5).2).length = 1 := by
  have H := ops_frame [wRecord] (some "a") (some wToken) 5 0 wRecord rfl
  exact ⟨H.1, H.2.1, H.2.2.2.1⟩

end LicenseServer
